import Mathlib

/-!
# Availability Genie – Outlook Bridge: verification of the extraction / routing layer

Shallow embedding of the browser-extension bridge of this repository:

* `src/unnamed/part_000` — background service worker (tab registry & router);
* `src/unnamed/part_001` — cached-token Microsoft-Graph strategy (isolated-world script);
* `src/unnamed/part_003` — session-authenticated OWA-REST strategy;
* `src/extension/content-outlook.js` — DOM-scraper strategy;
* `src/extension/content-genie.js` — consumer-tab page bridge.

Modelling conventions:

* JS strings are modelled as `List Char` (Lean's core `String` comparison functions are
  not kernel-reducible); a Lean string literal `s` enters the model as `s.data`.
* The JS regexes of the scraper are embedded as deterministic character scanners.  Each
  scanner is written to coincide with the leftmost-match backtracking behaviour of the
  concrete regex it models (the regexes involved are backtracking-free except for the
  `\d{1,2}` / `\d{2,4}` counted classes, which the scanners try greedily then shorter,
  exactly as the JS engine does).
* `new Date(string)` — whose behaviour on the non-ISO date strings involved is
  implementation-defined by ECMA-262 — is an oracle parameter: `List Char → Option JSDate`
  where `none` models an invalid date (`isNaN`) at call sites that test validity, and a
  total `List Char → JSDate` at the API-strategy call sites that never test validity.
* `chrome.tabs.query`, the network, and the DOM element list returned by
  `document.querySelectorAll('[aria-label]')` (in document order, with each element's
  ancestor chain) are likewise oracle parameters.
* The JS `while (nextLink)` pagination loop is embedded with an explicit fuel bound on the
  number of iterations unfolded; theorems hypothesise that the provider's continuation
  chain is finite and within fuel.
-/

/-! ## JS character classes and primitive string operations -/

/-- JS regex `\d` (ASCII digits). -/
def jsIsDigit (c : Char) : Bool := '0'.toNat ≤ c.toNat && c.toNat ≤ '9'.toNat

/-- JS regex `\s`, restricted to the whitespace characters occurring in this development. -/
def jsIsSpace (c : Char) : Bool := c = ' ' || c = '\t' || c = '\n' || c = '\r'

/-- JS regex word characters (`\w`), used for `\b` word boundaries. -/
def jsIsWord (c : Char) : Bool :=
  jsIsDigit c || ('A'.toNat ≤ c.toNat && c.toNat ≤ 'Z'.toNat) ||
    ('a'.toNat ≤ c.toNat && c.toNat ≤ 'z'.toNat) || c = '_'

/-- JS regex `[A-Za-z]`. -/
def jsIsAlpha (c : Char) : Bool :=
  ('A'.toNat ≤ c.toNat && c.toNat ≤ 'Z'.toNat) || ('a'.toNat ≤ c.toNat && c.toNat ≤ 'z'.toNat)

/-- ASCII upper-casing (as performed by `.toUpperCase()` on the strings involved). -/
def asciiUpper (c : Char) : Char :=
  if 'a'.toNat ≤ c.toNat && c.toNat ≤ 'z'.toNat then Char.ofNat (c.toNat - 32) else c

/-- ASCII lower-casing (as performed by `.toLowerCase()` on the strings involved). -/
def asciiLower (c : Char) : Char :=
  if 'A'.toNat ≤ c.toNat && c.toNat ≤ 'Z'.toNat then Char.ofNat (c.toNat + 32) else c

/-- Case-insensitive character comparison (the `i` regex flag). -/
def eqCI (a b : Char) : Bool := asciiUpper a = asciiUpper b

/-- Case-insensitive literal match: drops `pat` from the front of the input if it matches. -/
def dropCI : List Char → List Char → Option (List Char)
  | [], cs => some cs
  | _ :: _, [] => none
  | p :: ps, c :: cs => if eqCI p c then dropCI ps cs else none

/-- Case-sensitive literal match: drops `pat` from the front of the input if it matches. -/
def dropLit : List Char → List Char → Option (List Char)
  | [], cs => some cs
  | _ :: _, [] => none
  | p :: ps, c :: cs => if p = c then dropLit ps cs else none

/-- `s.startsWith(pre)` on character lists. -/
def beginsWith (s pre : List Char) : Bool := (dropLit pre s).isSome

/-- Lexicographic strict comparison of JS strings (`s1 < s2`), by code unit. -/
def lexLtB : List Char → List Char → Bool
  | [], [] => false
  | [], _ :: _ => true
  | _ :: _, [] => false
  | a :: as, b :: bs =>
    if a.toNat < b.toNat then true
    else if b.toNat < a.toNat then false
    else lexLtB as bs

/-- Lexicographic non-strict comparison of JS strings (`s1 <= s2`), by code unit. -/
def lexLeB : List Char → List Char → Bool
  | [], _ => true
  | _ :: _, [] => false
  | a :: as, b :: bs =>
    if a.toNat < b.toNat then true
    else if b.toNat < a.toNat then false
    else lexLeB as bs

/-- `parseInt(s, 10)` on an all-digit capture group. -/
def jsParseIntDigits (cs : List Char) : Nat :=
  cs.foldl (fun acc c => acc * 10 + (c.toNat - '0'.toNat)) 0

/-- `String(n)` for a natural number. -/
def natToChars (n : Nat) : List Char := (Nat.repr n).data

/-- `s.padStart(2, '0')`. -/
def jsPadStart2Zero (s : List Char) : List Char := List.replicate (2 - s.length) '0' ++ s

/-- The `pad` helper shared by all three strategies: `String(n).padStart(2, '0')`. -/
def pad2 (n : Nat) : List Char := jsPadStart2Zero (natToChars n)

/-- JS string truthiness for an `Option`al string: `null`/`undefined` and `''` are falsy. -/
def jsTruthy : Option String → Option String
  | some t => if t = "" then none else some t
  | none => none

/-- `a || b || ''` on two attribute reads (`getAttribute` returns `null` or a string). -/
def attrOrEmpty (a b : Option String) : List Char :=
  (((jsTruthy a).orElse fun _ => jsTruthy b).getD "").data

/-- Maximal run of JS whitespace: `(takeWhile, rest)`. -/
def spanSpace (cs : List Char) : List Char × List Char :=
  (cs.takeWhile jsIsSpace, cs.dropWhile jsIsSpace)

/-- `.replace(/\s+/g, ' ')`: collapse every whitespace run to a single space. -/
def collapseSpacesAux : Bool → List Char → List Char
  | _, [] => []
  | prevSp, c :: cs =>
    if jsIsSpace c then
      if prevSp then collapseSpacesAux true cs else ' ' :: collapseSpacesAux true cs
    else c :: collapseSpacesAux false cs

def collapseSpaces (cs : List Char) : List Char := collapseSpacesAux false cs

/-- `.replace(/[,\s]+/g, ' ')`: collapse every run of commas/whitespace to a single space. -/
def collapseCommaSpaceAux : Bool → List Char → List Char
  | _, [] => []
  | prevSp, c :: cs =>
    if c = ',' || jsIsSpace c then
      if prevSp then collapseCommaSpaceAux true cs
      else ' ' :: collapseCommaSpaceAux true cs
    else c :: collapseCommaSpaceAux false cs

def collapseCommaSpace (cs : List Char) : List Char := collapseCommaSpaceAux false cs

/-- `.trim()`. -/
def trimChars (cs : List Char) : List Char :=
  ((cs.dropWhile jsIsSpace).reverse.dropWhile jsIsSpace).reverse

/-- Leftmost-match search: the first position (scanning left to right) at which the
position matcher `p` succeeds; returns the text before the match and `p`'s result. -/
def scanFirst {β : Type} (p : List Char → Option β) : List Char → Option (List Char × β)
  | [] => (p []).map fun r => ([], r)
  | c :: cs =>
    match p (c :: cs) with
    | some r => some ([], r)
    | none => (scanFirst p cs).map fun pr => (c :: pr.1, pr.2)

/-- Leftmost-match search for patterns with a leading `\b`: like `scanFirst` but the
position matcher also receives the character preceding the position (`none` at the
start of the string). -/
def scanFirstPrev {β : Type} (p : Option Char → List Char → Option β) :
    Option Char → List Char → Option (List Char × β)
  | prev, [] => (p prev []).map fun r => ([], r)
  | prev, c :: cs =>
    match p prev (c :: cs) with
    | some r => some ([], r)
    | none => (scanFirstPrev p (some c) cs).map fun pr => (c :: pr.1, pr.2)

/-! ## The time-of-day regexes of content-outlook.js

`SINGLE_TIME = /\d{1,2}:\d{2}\s*[AP]M/i` and the identically-shaped capture groups of
`TIME_RANGE_FULL` and of `to24h`'s regex.  The only backtracking point is `\d{1,2}`:
the engine tries two digits first; if the two-digit parse fails the one-digit parse
requires the second character to be `':'`, which a digit never is, so trying the
two-digit reading exactly when the second character is a digit is equivalent. -/

structure TimeMatch where
  /-- `match[0]`: the full matched text. -/
  text : List Char
  hourDigits : List Char
  minDigits : List Char
  meridiem : List Char
  rest : List Char
deriving DecidableEq

/-- `:\d{2}\s*[AP]M` after the already-consumed hour digits `hd`. -/
def timeTail (hd : List Char) : List Char → Option TimeMatch
  | ':' :: m1 :: m2 :: rest =>
    if jsIsDigit m1 && jsIsDigit m2 then
      match spanSpace rest with
      | (sp, a :: m :: rest') =>
        if (eqCI a 'A' || eqCI a 'P') && eqCI m 'M' then
          some ⟨hd ++ ':' :: m1 :: m2 :: (sp ++ [a, m]), hd, [m1, m2], [a, m], rest'⟩
        else none
      | _ => none
    else none
  | _ => none

/-- `\d{1,2}:\d{2}\s*[AP]M` anchored at the current position. -/
def timeAt : List Char → Option TimeMatch
  | [] => none
  | c1 :: rest1 =>
    if jsIsDigit c1 then
      match rest1 with
      | c2 :: rest2 => if jsIsDigit c2 then timeTail [c1, c2] rest2 else timeTail [c1] rest1
      | [] => none
    else none

/-- `SINGLE_TIME.test(label)`. -/
def hasSingleTime (cs : List Char) : Bool := (scanFirst timeAt cs).isSome

structure RangeMatch where
  /-- `rangeMatch[0]`. -/
  text : List Char
  /-- `rangeMatch[1]`: the start time text. -/
  g1 : List Char
  /-- `rangeMatch[2]`: the end time text. -/
  g2 : List Char
  rest : List Char
deriving DecidableEq

/-- Maximal run of the dash class `[-–—]` of `TIME_RANGE_FULL`. -/
def spanDashes (cs : List Char) : List Char × List Char :=
  (cs.takeWhile fun c => c = '-' || c = '–' || c = '—',
   cs.dropWhile fun c => c = '-' || c = '–' || c = '—')

/-- `TIME_RANGE_FULL` anchored at the current position:
`(\d{1,2}:\d{2}\s*[AP]M)\s*(?:[-–—]+|\bto\b)\s*(\d{1,2}:\d{2}\s*[AP]M)` (flag `i`).
In the `\bto\b` alternative the character before `to` is the final `M` of the first
time unless at least one whitespace was consumed, so the left word boundary is
equivalent to having consumed whitespace; the right word boundary plus the following
`\s*\d` require a non-word character after `to`. -/
def rangeAt (cs : List Char) : Option RangeMatch :=
  match timeAt cs with
  | none => none
  | some t1 =>
    match spanSpace t1.rest with
    | (sp1, r1) =>
      match spanDashes r1 with
      | (d :: ds, r2) =>
        match spanSpace r2 with
        | (sp2, r3) =>
          match timeAt r3 with
          | some t2 =>
            some ⟨t1.text ++ sp1 ++ (d :: ds) ++ sp2 ++ t2.text, t1.text, t2.text, t2.rest⟩
          | none => none
      | ([], _) =>
        if sp1.isEmpty then none
        else
          match r1 with
          | c1 :: c2 :: r2 =>
            if eqCI c1 't' && eqCI c2 'o' &&
                (match r2 with | [] => true | c :: _ => !jsIsWord c) then
              match spanSpace r2 with
              | (sp2, r3) =>
                match timeAt r3 with
                | some t2 =>
                  some ⟨t1.text ++ sp1 ++ [c1, c2] ++ sp2 ++ t2.text, t1.text, t2.text, t2.rest⟩
                | none => none
            else none
          | _ => none

/-- `TIME_RANGE_FULL.exec(label)` (leftmost match). -/
def execTimeRange (cs : List Char) : Option (List Char × RangeMatch) := scanFirst rangeAt cs

/-- `.replace(TIME_RANGE_FULL, '')` (no `g` flag: first occurrence only). -/
def replaceFirstRange (cs : List Char) : List Char :=
  match scanFirst rangeAt cs with
  | some (pre, m) => pre ++ m.rest
  | none => cs

/-- `.replace(SINGLE_TIME, '')` (no `g` flag: first occurrence only). -/
def replaceFirstTime (cs : List Char) : List Char :=
  match scanFirst timeAt cs with
  | some (pre, m) => pre ++ m.rest
  | none => cs

/-- `to24h` from content-outlook.js: convert `"9:30 AM"` / `"10:00 PM"` to `"09:30"` /
`"22:00"`; `none` models the JS `null` returned when the regex does not match. -/
def to24h (timeStr : List Char) : Option (List Char) :=
  match scanFirst timeAt timeStr with
  | none => none
  | some (_, m) =>
    let h := jsParseIntDigits m.hourDigits
    let ampm := m.meridiem.map asciiUpper
    let h' :=
      if ampm = ['P', 'M'] && h < 12 then h + 12
      else if ampm = ['A', 'M'] && h = 12 then 0
      else h
    some (pad2 h' ++ ':' :: m.minDigits)

/-! ## The date regexes and date helpers of content-outlook.js -/

/-- The `DAY_NAMES` alternation, in source order (also the `dayNames` arrays of the two
API strategies, and `DAY_NAMES.split('|')`). -/
def dayNames : List String :=
  ["Sunday", "Monday", "Tuesday", "Wednesday", "Thursday", "Friday", "Saturday"]

/-- Model of a (valid) JS `Date`'s local-time accessors: `getFullYear`, `getMonth`
(0-based), `getDate`, `getDay` (0 = Sunday), `getHours`, `getMinutes`. -/
structure JSDate where
  fullYear : Nat
  month : Nat
  date : Nat
  day : Nat
  hours : Nat
  minutes : Nat
deriving DecidableEq

/-- `toISODate` from content-outlook.js: format a date as `"YYYY-MM-DD"`. -/
def toISODate (d : JSDate) : List Char :=
  natToChars d.fullYear ++ '-' :: pad2 (d.month + 1) ++ '-' :: pad2 d.date

/-- `capitalise` from content-outlook.js. -/
def capitalise : List Char → List Char
  | [] => []
  | c :: cs => asciiUpper c :: cs.map asciiLower

/-- Try the weekday alternation case-insensitively at the current position; returns
(matched text, rest).  No day name is a prefix of another, so at most one alternative
can match at a given position. -/
def tryDayNames (cs : List Char) : Option (List Char × List Char) :=
  (dayNames.map (·.data)).foldr
    (fun name acc =>
      match dropCI name cs with
      | some rest => some (cs.take name.length, rest)
      | none => acc)
    none

/-- The tail of `DAY_DATE_INLINE`'s capture group 2 after its `[A-Za-z]+\.?\s+`:
`\d{1,2}(?:[,\s]+\d{4})?`.  Returns (group text, rest).  The trailing optional year
group is tried greedily; since the pattern ends after it, the `\d{1,2}` always keeps
its greedy (longest) reading. -/
def dayDateDigitsPart (cs : List Char) : Option (List Char × List Char) :=
  match cs with
  | [] => none
  | d1 :: t1 =>
    if jsIsDigit d1 then
      let (ds, r) :=
        match t1 with
        | d2 :: t2 => if jsIsDigit d2 then ([d1, d2], t2) else ([d1], t1)
        | [] => ([d1], t1)
      let sep := r.takeWhile fun c => c = ',' || jsIsSpace c
      let afterSep := r.dropWhile fun c => c = ',' || jsIsSpace c
      match sep, afterSep with
      | _ :: _, y1 :: y2 :: y3 :: y4 :: r' =>
        if jsIsDigit y1 && jsIsDigit y2 && jsIsDigit y3 && jsIsDigit y4 then
          some (ds ++ sep ++ [y1, y2, y3, y4], r')
        else some (ds, r)
      | _, _ => some (ds, r)
    else none

/-- `DAY_DATE_INLINE` anchored at the current position (`prev` is the preceding
character, for the leading `\b`):
`\b(Sunday|…|Saturday)[,\s]+([A-Za-z]+\.?\s+\d{1,2}(?:[,\s]+\d{4})?)` (flag `i`).
Returns (group 1, group 2). -/
def dayDateAt (prev : Option Char) (cs : List Char) : Option (List Char × List Char) :=
  if (match prev with | none => true | some p => !jsIsWord p) then
    match tryDayNames cs with
    | none => none
    | some (nameText, r0) =>
      let sep := r0.takeWhile fun c => c = ',' || jsIsSpace c
      let r1 := r0.dropWhile fun c => c = ',' || jsIsSpace c
      if sep.isEmpty then none
      else
        let letters := r1.takeWhile jsIsAlpha
        let r2 := r1.dropWhile jsIsAlpha
        if letters.isEmpty then none
        else
          let (dot, r3) := match r2 with | '.' :: t => (['.'], t) | _ => (([] : List Char), r2)
          let (sp, r4) := spanSpace r3
          if sp.isEmpty then none
          else
            match dayDateDigitsPart r4 with
            | some (dtext, _) => some (nameText, letters ++ dot ++ sp ++ dtext)
            | none => none
  else none

/-- `DAY_DATE_INLINE.exec(label)` (leftmost match, with word boundary). -/
def execDayDateInline (cs : List Char) : Option (List Char × List Char) :=
  (scanFirstPrev dayDateAt none cs).map (·.2)

/-- Alternative 1 of `NUMERIC_DATE` at the current position: `\b(\d{4}-\d{2}-\d{2})\b`. -/
def numericDateIsoAt (prev : Option Char) (cs : List Char) : Option (List Char) :=
  if (match prev with | none => true | some p => !jsIsWord p) then
    match cs with
    | y1 :: y2 :: y3 :: y4 :: '-' :: m1 :: m2 :: '-' :: d1 :: d2 :: r =>
      if jsIsDigit y1 && jsIsDigit y2 && jsIsDigit y3 && jsIsDigit y4 &&
          jsIsDigit m1 && jsIsDigit m2 && jsIsDigit d1 && jsIsDigit d2 &&
          (match r with | [] => true | c :: _ => !jsIsWord c) then
        some [y1, y2, y3, y4, '-', m1, m2, '-', d1, d2]
      else none
    | _ => none
  else none

/-- `\d{1,2}` immediately followed by `'/'`: greedy two digits, else one. -/
def slashDigits (cs : List Char) : Option (List Char × List Char) :=
  match cs with
  | d1 :: '/' :: r => if jsIsDigit d1 then some ([d1], r) else none
  | d1 :: d2 :: '/' :: r => if jsIsDigit d1 && jsIsDigit d2 then some ([d1, d2], r) else none
  | _ => none

/-- `\d{2,4}\b`: greedy four, then three, then two digits, each followed by a word
boundary. -/
def trailYearDigits (cs : List Char) : Option (List Char) :=
  match cs with
  | a :: b :: c :: d :: r =>
    if jsIsDigit a && jsIsDigit b && jsIsDigit c && jsIsDigit d &&
        (match r with | [] => true | x :: _ => !jsIsWord x) then some [a, b, c, d]
    else if jsIsDigit a && jsIsDigit b && jsIsDigit c && !jsIsWord d then some [a, b, c]
    else if jsIsDigit a && jsIsDigit b && !jsIsWord c then some [a, b]
    else none
  | [a, b, c] =>
    if jsIsDigit a && jsIsDigit b && jsIsDigit c then some [a, b, c]
    else if jsIsDigit a && jsIsDigit b && !jsIsWord c then some [a, b]
    else none
  | [a, b] => if jsIsDigit a && jsIsDigit b then some [a, b] else none
  | _ => none

/-- Alternative 2 of `NUMERIC_DATE` at the current position:
`\b(\d{1,2}\/\d{1,2}\/\d{2,4})\b`. -/
def numericDateSlashAt (prev : Option Char) (cs : List Char) : Option (List Char) :=
  if (match prev with | none => true | some p => !jsIsWord p) then
    match slashDigits cs with
    | none => none
    | some (g1, r1) =>
      match slashDigits r1 with
      | none => none
      | some (g2, r2) =>
        match trailYearDigits r2 with
        | none => none
        | some g3 => some (g1 ++ '/' :: g2 ++ '/' :: g3)
  else none

/-- `NUMERIC_DATE` at the current position (alternative 1 tried first, as in the
regex alternation).  Returns `numMatch[1] || numMatch[2]` — here each alternative's
capture group is its whole match. -/
def numericDateAt (prev : Option Char) (cs : List Char) : Option (List Char) :=
  match numericDateIsoAt prev cs with
  | some g => some g
  | none => numericDateSlashAt prev cs

/-- `NUMERIC_DATE.exec(label)` (leftmost match). -/
def execNumericDate (cs : List Char) : Option (List Char) :=
  (scanFirstPrev numericDateAt none cs).map (·.2)

/-- `/\d{4}/.test(str)`: some four consecutive digits occur. -/
def hasFourDigitRun : List Char → Bool
  | a :: b :: c :: d :: rest =>
    (jsIsDigit a && jsIsDigit b && jsIsDigit c && jsIsDigit d) || hasFourDigitRun (b :: c :: d :: rest)
  | _ => false

/-- `parseLooseDate` from content-outlook.js.  `jsDate` is the host `new Date(string)`
parser (implementation-defined for these formats; `none` = invalid date), `currentYear`
is `new Date().getFullYear()`. -/
def parseLooseDate (jsDate : List Char → Option JSDate) (currentYear : Nat)
    (str : List Char) : Option JSDate :=
  let withYear := if hasFourDigitRun str then str else str ++ ' ' :: natToChars currentYear
  jsDate withYear

/-! ## `stripTimeDateFromLabel` -/

/-- `(Sunday|…|Saturday)[^,]*` (flag `i`, no word boundary) at the current position;
returns the rest after the match. -/
def weekdayFragAt (cs : List Char) : Option (List Char) :=
  match tryDayNames cs with
  | some (_, rest) => some (rest.dropWhile (· ≠ ','))
  | none => none

/-- `.replace(/(Sunday|…|Saturday)[^,]*/i, '')` (first occurrence). -/
def replaceFirstWeekday (s : List Char) : List Char :=
  match scanFirst weekdayFragAt s with
  | some (pre, rest) => pre ++ rest
  | none => s

/-- `.replace(str, '')` for a plain (non-regex) search string: first occurrence. -/
def replaceFirstSub (s t : List Char) : List Char :=
  match scanFirst (dropLit t) s with
  | some (pre, rest) => pre ++ rest
  | none => s

/-- `[A-Za-z]+\.?\s+\d{1,2}(?:,\s*\d{4})?` at the current position; returns the rest
after the match. -/
def dateFragAt (cs : List Char) : Option (List Char) :=
  let letters := cs.takeWhile jsIsAlpha
  let r1 := cs.dropWhile jsIsAlpha
  if letters.isEmpty then none
  else
    let (_, r2) := match r1 with | '.' :: t => (['.'], t) | _ => (([] : List Char), r1)
    let (sp, r3) := spanSpace r2
    if sp.isEmpty then none
    else
      match r3 with
      | d1 :: t1 =>
        if jsIsDigit d1 then
          let r4 :=
            match t1 with
            | d2 :: t2 => if jsIsDigit d2 then t2 else t1
            | [] => t1
          match r4 with
          | ',' :: t5 =>
            let (_, r6) := spanSpace t5
            match r6 with
            | y1 :: y2 :: y3 :: y4 :: r7 =>
              if jsIsDigit y1 && jsIsDigit y2 && jsIsDigit y3 && jsIsDigit y4 then some r7
              else some r4
            | _ => some r4
          | _ => some r4
        else none
      | [] => none

/-- `.replace(/[A-Za-z]+\.?\s+\d{1,2}(?:,\s*\d{4})?/g, '')`: global replacement,
resuming after each match.  Fueled by the input length (every step consumes at least
one character). -/
def globalReplaceDateFragsAux : Nat → List Char → List Char
  | 0, cs => cs
  | _ + 1, [] => []
  | n + 1, c :: cs =>
    match dateFragAt (c :: cs) with
    | some rest => globalReplaceDateFragsAux n rest
    | none => c :: globalReplaceDateFragsAux n cs

def globalReplaceDateFrags (cs : List Char) : List Char :=
  globalReplaceDateFragsAux cs.length cs

/-- `stripTimeDateFromLabel` from content-outlook.js. -/
def stripTimeDateFromLabel (label timeRangeStr : List Char) : List Char :=
  trimChars (collapseCommaSpace (globalReplaceDateFrags
    (replaceFirstWeekday (replaceFirstSub label timeRangeStr))))

/-! ## The DOM scraper: `readCalendarFromDom` and `findDateAncestor` -/

/-- The only event type crossing the Extraction Engine boundary
(`NormalizedEvent` in the spec): `{ title, start: "HH:MM", end: "HH:MM",
date: ISODate | null, day: WeekdayName | null }`. -/
structure NormalizedEvent where
  title : List Char
  start : List Char
  «end» : List Char
  date : Option (List Char)
  day : Option (List Char)
deriving DecidableEq

/-- An ancestor element, as inspected by `findDateAncestor`: its `data-date`,
`datetime` and `aria-label` attributes (`getAttribute` yields `null` or a string). -/
structure DomAncestor where
  dataDate : Option String
  datetime : Option String
  ariaLabel : Option String
deriving DecidableEq

/-- An element of the `document.querySelectorAll('[aria-label]')` result, in document
order, together with its `textContent` and its `parentElement` chain (nearest
ancestor first). -/
structure DomElement where
  ariaLabel : Option String
  textContent : Option String
  ancestors : List DomAncestor
deriving DecidableEq

/-- The result record of `findDateAncestor`: `{date, day}` (its `day` is undefined
when `dayNames.split('|')[parsed.getDay()]` indexes out of range). -/
structure DateInfo where
  date : List Char
  day : Option (List Char)

/-- The body of `findDateAncestor`'s `while` loop over the (depth-limited) ancestor
chain.  Within one node it checks the `data-date`/`datetime` attributes, then a
`DAY_DATE_INLINE` match in the node's `aria-label`, then a `NUMERIC_DATE` match;
an invalid parse falls through to the next check, then to the next ancestor. -/
def findDateAncestorGo (jsDate : List Char → Option JSDate) (currentYear : Nat) :
    List DomAncestor → Option DateInfo
  | [] => none
  | n :: rest =>
    let dataDate := attrOrEmpty n.dataDate n.datetime
    let viaAttr : Option DateInfo :=
      if dataDate.isEmpty then none
      else
        match jsDate dataDate with
        | some parsed => some ⟨toISODate parsed, (dayNames[parsed.day]?).map (·.data)⟩
        | none => none
    match viaAttr with
    | some r => some r
    | none =>
      let ancestorLabel := ((jsTruthy n.ariaLabel).getD "").data
      let viaInline : Option DateInfo :=
        match execDayDateInline ancestorLabel with
        | some (g1, g2) =>
          match parseLooseDate jsDate currentYear g2 with
          | some parsed => some ⟨toISODate parsed, some (capitalise g1)⟩
          | none => none
        | none => none
      match viaInline with
      | some r => some r
      | none =>
        match execNumericDate ancestorLabel with
        | some txt =>
          match jsDate txt with
          | some parsed =>
            some ⟨toISODate parsed, (dayNames[parsed.day]?).map (·.data)⟩
          | none => findDateAncestorGo jsDate currentYear rest
        | none => findDateAncestorGo jsDate currentYear rest

/-- `findDateAncestor` from content-outlook.js (`depth < 12`). -/
def findDateAncestor (jsDate : List Char → Option JSDate) (currentYear : Nat)
    (el : DomElement) : Option DateInfo :=
  findDateAncestorGo jsDate currentYear (el.ancestors.take 12)

/-- The date-extraction section of `readCalendarFromDom`'s loop body: strategies A
(inline `DAY_DATE_INLINE`), B (`NUMERIC_DATE` in the label) and C (dated ancestor),
first success wins; returns the final `(date, day)` pair. -/
def resolveDate (jsDate : List Char → Option JSDate) (currentYear : Nat)
    (label : List Char) (el : DomElement) : Option (List Char) × Option (List Char) :=
  -- Strategy A: date embedded in the aria-label itself
  let stepA : Option (List Char) × Option (List Char) :=
    match execDayDateInline label with
    | some (g1, g2) =>
      let day := some (capitalise g1)
      match parseLooseDate jsDate currentYear g2 with
      | some parsed => (some (toISODate parsed), day)
      | none => (none, day)
    | none => (none, none)
  -- Strategy B: numeric date in aria-label
  let stepB : Option (List Char) × Option (List Char) :=
    if stepA.1.isSome then stepA
    else
      match execNumericDate label with
      | some txt =>
        match jsDate txt with
        | some parsed =>
          (some (toISODate parsed), stepA.2.orElse fun _ => (dayNames[parsed.day]?).map (·.data))
        | none => stepA
      | none => stepA
  -- Strategy C: walk up the DOM tree looking for a dated ancestor
  if stepB.1.isSome then stepB
  else
    match findDateAncestor jsDate currentYear el with
    | some anc => (some anc.date, stepB.2.orElse fun _ => anc.day)
    | none => stepB

/-- One iteration of `readCalendarFromDom`'s `for` loop, up to (but not including)
the dedup check: `none` models `continue`. -/
def processElement (jsDate : List Char → Option JSDate) (currentYear : Nat)
    (el : DomElement) : Option NormalizedEvent :=
  let label := ((jsTruthy el.ariaLabel).getD "").data
  if !hasSingleTime label then none
  else
    match execTimeRange label with
    | none => none
    | some (_, rangeMatch) =>
      match to24h rangeMatch.g1, to24h rangeMatch.g2 with
      | some start, some stop =>
        let rawText := trimChars (collapseSpaces ((jsTruthy el.textContent).getD "").data)
        let visibleTitle :=
          trimChars (collapseSpaces (replaceFirstTime (replaceFirstRange rawText)))
        let title0 :=
          if visibleTitle.isEmpty then stripTimeDateFromLabel label rangeMatch.text
          else visibleTitle
        let title1 := title0.take 120
        let title := if title1.isEmpty then "Busy".data else title1
        let dateDay := resolveDate jsDate currentYear label el
        some ⟨title, start, stop, dateDay.1, dateDay.2⟩
      | _, _ => none

/-- The dedup key: `` `${date ?? day ?? '?'}-${start}-${end}-${title.slice(0, 40)}` ``. -/
def keyOf (ev : NormalizedEvent) : List Char :=
  ev.date.getD (ev.day.getD "?".data) ++ '-' :: ev.start ++ '-' :: ev.«end» ++
    '-' :: ev.title.take 40

/-- The `for` loop of `readCalendarFromDom` with its `seen` set (modelled as the list
of keys inserted so far) and `results` accumulator. -/
def scrapeLoop (jsDate : List Char → Option JSDate) (currentYear : Nat) :
    List DomElement → List (List Char) → List NormalizedEvent
  | [], _ => []
  | el :: els, seen =>
    match processElement jsDate currentYear el with
    | none => scrapeLoop jsDate currentYear els seen
    | some ev =>
      if keyOf ev ∈ seen then scrapeLoop jsDate currentYear els seen
      else ev :: scrapeLoop jsDate currentYear els (keyOf ev :: seen)

/-- `readCalendarFromDom` from content-outlook.js, over the queried element list. -/
def readCalendarFromDom (jsDate : List Char → Option JSDate) (currentYear : Nat)
    (els : List DomElement) : List NormalizedEvent :=
  scrapeLoop jsDate currentYear els []

/-! ## The scraper's message handler: `weekOf` and the runtime messages -/

/-- The JS string ordering as a relation, for `Array.prototype.sort()` (default
comparator: lexicographic by code unit). -/
def lexLe (a b : List Char) : Prop := lexLeB a b = true

instance : DecidableRel lexLe := fun a b => instDecidableEqBool (lexLeB a b) true

/-- `.filter(Boolean)` on an array of string-or-null values (`null` and `''` are falsy). -/
def jsFilterBooleanStrs (ds : List (Option (List Char))) : List (List Char) :=
  ds.filterMap fun d =>
    match d with
    | some s => if s.isEmpty then none else some s
    | none => none

/-- `.sort()` on an array of strings: the sorted (by the default string comparator)
permutation of the array. -/
def jsSortStrings (l : List (List Char)) : List (List Char) := List.insertionSort lexLe l

/-- The non-null event dates, sorted:
`events.map((e) => e.date).filter(Boolean).sort()` from content-outlook.js. -/
def sortedEventDates (events : List NormalizedEvent) : List (List Char) :=
  jsSortStrings (jsFilterBooleanStrs (events.map (·.date)))

/-- `weekOf` from content-outlook.js's message listener: `dates[0] ?? null`. -/
def scraperWeekOf (events : List NormalizedEvent) : Option (List Char) :=
  (sortedEventDates events).head?

/-- Messages a content script sends to the background worker
(`chrome.runtime.sendMessage`).  Only the DOM-scrape strategy includes a `weekOf`
field in its `OUTLOOK_EVENTS_READY` message. -/
inductive RuntimeMsg
  | outlookEventsReady (events : List NormalizedEvent) (weekOf : Option (Option (List Char)))
  | outlookFetchErr (error : List Char)
deriving DecidableEq

def noEventsFoundMsg : List Char :=
  ("No calendar events found on the Outlook page. Make sure you are on the Calendar view (not Mail) and that events are visible on screen.").data

/-- content-outlook.js's `FETCH_CALENDAR_EVENTS` handler: scrape, then either report
`OUTLOOK_FETCH_ERROR` (no events) or `OUTLOOK_EVENTS_READY` with events and `weekOf`. -/
def scraperHandleFetch (jsDate : List Char → Option JSDate) (currentYear : Nat)
    (els : List DomElement) : RuntimeMsg :=
  let events := readCalendarFromDom jsDate currentYear els
  if events.isEmpty then .outlookFetchErr noEventsFoundMsg
  else .outlookEventsReady events (some (scraperWeekOf events))

/-! ## Strategy A (part_001): cached-token Microsoft-Graph fetch -/

/-- A raw Graph calendarView event as consumed by part_001's normalization:
`subject`, `showAs`, `start.dateTime`, `end.dateTime` (fields possibly absent). -/
structure GraphEvent where
  subject : Option String
  showAs : Option String
  startDateTime : String
  endDateTime : String
deriving DecidableEq

/-- An upstream HTTP response as consumed by the strategies: status, body text
(for error reporting), parsed JSON `value` array and `@odata.nextLink`. -/
structure HttpPage (α : Type) where
  status : Nat
  body : String
  value : Option (List α)
  nextLink : Option String
deriving DecidableEq

/-- `Response.ok`: status in the inclusive range 200–299. -/
def httpOk (status : Nat) : Bool := 200 ≤ status && status ≤ 299

/-- The network requests a strategy issues: the initial calendarView query, or a
continuation-link fetch. -/
inductive ApiRequest
  | calendarView
  | page (link : String)
deriving DecidableEq

/-- The network oracle: the response to the initial calendarView request and to each
continuation link. -/
structure ApiNet (α : Type) where
  first : HttpPage α
  page : String → HttpPage α

/-- The `while (nextLink)` pagination loop shared verbatim by part_001 and part_003:
each iteration fetches the current link, breaks if the response is not ok, otherwise
appends `pageData.value || []` and follows `pageData['@odata.nextLink']`.  Returns the
accumulated raw events and the requests issued; `fuel` bounds the iterations unfolded. -/
def followNextLinks {α : Type} (net : String → HttpPage α) :
    Nat → Option String → List α → List α × List ApiRequest
  | _, none, acc => (acc, [])
  | 0, some _, acc => (acc, [])
  | fuel + 1, some link, acc =>
    let resp := net link
    if httpOk resp.status then
      let next := followNextLinks net fuel resp.nextLink (acc ++ resp.value.getD [])
      (next.1, .page link :: next.2)
    else (acc, [.page link])

/-- `parseGraphDateTime`'s normalization step: strip a trailing `.digits` fragment
(the regex `/(\.\d+)?$/` removes sub-second precision, and matches emptily otherwise). -/
def stripSubseconds (cs : List Char) : List Char :=
  let rev := cs.reverse
  let ds := rev.takeWhile jsIsDigit
  match ds, rev.drop ds.length with
  | _ :: _, '.' :: rest => rest.reverse
  | _, _ => cs

def graphDayNames : List String := dayNames

/-- The normalization `map` of part_001's `fetchCalendarEvents`.  `jsLocal` models the
host's `new Date(string)` (no trailing `Z`: parsed as local time) composed with the
local-time accessors; part_001 never tests the parse for validity, so the oracle is
total. -/
def normalizeGraphEvent (jsLocal : List Char → JSDate) (e : GraphEvent) : NormalizedEvent :=
  let startDt := jsLocal (stripSubseconds e.startDateTime.data)
  let endDt := jsLocal (stripSubseconds e.endDateTime.data)
  { title := ((jsTruthy e.subject).getD "Busy").data
    start := pad2 startDt.hours ++ ':' :: pad2 startDt.minutes
    «end» := pad2 endDt.hours ++ ':' :: pad2 endDt.minutes
    date := some (natToChars startDt.fullYear ++ '-' :: pad2 (startDt.month + 1) ++
      '-' :: pad2 startDt.date)
    day := (dayNames[startDt.day]?).map (·.data) }

deriving instance DecidableEq for Except

/-- part_001's filter-then-normalize over the accumulated events:
`.filter((e) => e.showAs !== 'free').map(...)`. -/
def normalizeGraphList (jsLocal : List Char → JSDate) (events : List GraphEvent) :
    List NormalizedEvent :=
  (events.filter fun e => e.showAs ≠ some "free").map (normalizeGraphEvent jsLocal)

def noTokenCapturedMsg : List Char :=
  ("No Outlook session token captured yet. Make sure the Outlook calendar tab is open and has finished loading, then try again.").data

def tokenExpiredMsg : List Char :=
  ("Outlook session token expired. The Outlook tab will refresh it automatically — please wait a moment and try again.").data

/-- `` `Graph API error ${resp.status}${body ? ': ' + body.slice(0, 120) : ''}` ``. -/
def graphApiErrorMsg (status : Nat) (body : List Char) : List Char :=
  "Graph API error ".data ++ natToChars status ++
    (if body.isEmpty then [] else ": ".data ++ body.take 120)

/-- part_001's `fetchCalendarEvents`, as a function of the module-level `cachedToken`,
the network, and the host date parser.  Returns the updated `cachedToken`, the
settled result (`Except` error = rejected promise), and the requests issued. -/
def graphFetchCalendarEvents (jsLocal : List Char → JSDate) (net : ApiNet GraphEvent)
    (fuel : Nat) (cachedToken : Option String) :
    Option String × Except (List Char) (List NormalizedEvent) × List ApiRequest :=
  match cachedToken with
  | none => (none, .error noTokenCapturedMsg, [])
  | some tok =>
    let resp := net.first
    if resp.status = 401 then
      -- Token likely expired; clear it so the next sync waits for a fresh one
      (none, .error tokenExpiredMsg, [.calendarView])
    else if !httpOk resp.status then
      (some tok, .error (graphApiErrorMsg resp.status resp.body.data), [.calendarView])
    else
      let paged := followNextLinks net.page fuel resp.nextLink (resp.value.getD [])
      (some tok, .ok (normalizeGraphList jsLocal paged.1), .calendarView :: paged.2)

/-! ## Strategy B (part_003): session-authenticated OWA-REST fetch -/

/-- A raw OWA REST event as consumed by part_003: `Subject`, `ShowAs`,
`Start.DateTime`, `End.DateTime`. -/
structure OwaEvent where
  Subject : Option String
  ShowAs : Option String
  StartDateTime : String
  EndDateTime : String
deriving DecidableEq

def notSignedInMsg : List Char := ("Not signed in to Outlook. Please sign in and try again.").data

/-- `` `OWA calendar API error ${resp.status}${body ? ': ' + body.slice(0, 120) : ''}` ``. -/
def owaApiErrorMsg (status : Nat) (body : List Char) : List Char :=
  "OWA calendar API error ".data ++ natToChars status ++
    (if body.isEmpty then [] else ": ".data ++ body.take 120)

/-- The normalization `map` of part_003: `new Date(e.Start.DateTime + 'Z')` then
local-time accessors (the oracle receives the string with the appended `Z`). -/
def normalizeOwaEvent (jsLocal : List Char → JSDate) (e : OwaEvent) : NormalizedEvent :=
  let startDt := jsLocal (e.StartDateTime.data ++ ['Z'])
  let endDt := jsLocal (e.EndDateTime.data ++ ['Z'])
  { title := ((jsTruthy e.Subject).getD "Busy").data
    start := pad2 startDt.hours ++ ':' :: pad2 startDt.minutes
    «end» := pad2 endDt.hours ++ ':' :: pad2 endDt.minutes
    date := some (natToChars startDt.fullYear ++ '-' :: pad2 (startDt.month + 1) ++
      '-' :: pad2 startDt.date)
    day := (dayNames[startDt.day]?).map (·.data) }

/-- part_003's filter-then-normalize: `.filter((e) => e.ShowAs !== 'Free').map(...)`. -/
def normalizeOwaList (jsLocal : List Char → JSDate) (events : List OwaEvent) :
    List NormalizedEvent :=
  (events.filter fun e => e.ShowAs ≠ some "Free").map (normalizeOwaEvent jsLocal)

/-- part_003's `fetchCalendarEvents`: no token state; a 401 gets the not-signed-in
message, any other non-ok status the OWA error message. -/
def owaFetchCalendarEvents (jsLocal : List Char → JSDate) (net : ApiNet OwaEvent)
    (fuel : Nat) : Except (List Char) (List NormalizedEvent) × List ApiRequest :=
  let resp := net.first
  if !httpOk resp.status then
    if resp.status = 401 then (.error notSignedInMsg, [.calendarView])
    else (.error (owaApiErrorMsg resp.status resp.body.data), [.calendarView])
  else
    let paged := followNextLinks net.page fuel resp.nextLink (resp.value.getD [])
    (.ok (normalizeOwaList jsLocal paged.1), .calendarView :: paged.2)

/-! ## The background service worker (part_000): tab registry & router -/

/-- Messages the background worker sends to tabs (`chrome.tabs.sendMessage`). -/
inductive OutboundMsg
  | relayOutlookEvents (events : List NormalizedEvent)
  | outlookFetchErr (error : List Char)
  | fetchCalendarCmd
deriving DecidableEq

/-- The `OUTLOOK_EVENTS_READY` message as received by the worker; the scrape strategy
additionally includes a `weekOf` field, which the worker never reads. -/
structure EventsReadyMsg where
  events : Option (List NormalizedEvent)
  weekOf : Option (Option (List Char))

/-- The worker's `OUTLOOK_EVENTS_READY` branch: relay
`{ type: 'RELAY_OUTLOOK_EVENTS', events }` with `events = message.events || []` to
every tab in `genieTabs`.  (A delivery failure prunes that tab from the registry;
the send is attempted to every registered tab.) -/
def routerOnEventsReady (genieTabs : List Nat) (msg : EventsReadyMsg) :
    List (Nat × OutboundMsg) :=
  genieTabs.map fun tabId => (tabId, .relayOutlookEvents (msg.events.getD []))

/-- The worker's `OUTLOOK_FETCH_ERROR` branch: relay the error to every registered tab. -/
def routerOnFetchError (genieTabs : List Nat) (error : List Char) :
    List (Nat × OutboundMsg) :=
  genieTabs.map fun tabId => (tabId, .outlookFetchErr error)

/-- A `chrome.tabs.query` result entry. -/
structure ChromeTab where
  id : Option Nat

/-- The ordered source-tab URL patterns of `fetchFromOutlookTab`. -/
def outlookPatterns : List String :=
  ["https://outlook.office.com/*", "https://outlook.office365.com/*",
   "https://outlook.live.com/*", "https://outlook.cloud.microsoft/*"]

/-- The pattern loop of `fetchFromOutlookTab`: first pattern with any match wins,
first tab within that pattern wins. -/
def firstTabMatching (query : String → List ChromeTab) : List String → Option ChromeTab
  | [] => none
  | p :: ps =>
    match query p with
    | [] => firstTabMatching query ps
    | t :: _ => some t

def noOutlookTabMsg : List Char :=
  ("No Outlook tab found. Please open Outlook Web App in another tab and try again.").data

def outlookUnreachableMsg : List Char :=
  ("Could not communicate with the Outlook tab. Try reloading it.").data

/-- `fetchFromOutlookTab` from part_000.  `query` models `chrome.tabs.query`,
`deliverable` models whether `chrome.tabs.sendMessage` to the located Outlook tab
succeeds.  Returns the list of `(tabId, message)` sends attempted, in order. -/
def fetchFromOutlookTab (query : String → List ChromeTab) (deliverable : Nat → Bool)
    (requestingTabId : Option Nat) : List (Nat × OutboundMsg) :=
  match firstTabMatching query outlookPatterns with
  | none =>
    match requestingTabId with
    | some r => [(r, .outlookFetchErr noOutlookTabMsg)]
    | none => []
  | some t =>
    match t.id with
    | none =>
      match requestingTabId with
      | some r => [(r, .outlookFetchErr noOutlookTabMsg)]
      | none => []
    | some outlookId =>
      if deliverable outlookId then [(outlookId, .fetchCalendarCmd)]
      else
        (outlookId, .fetchCalendarCmd) ::
          (match requestingTabId with
           | some r => [(r, .outlookFetchErr outlookUnreachableMsg)]
           | none => [])

/-! ## The consumer-tab page bridge (content-genie.js) -/

/-- Messages the bridge republishes on the page-level channel (`window.postMessage`
with `source: 'availabilitygenie-bridge'`). -/
inductive PageMsg
  | outlookEventsImported (events : List NormalizedEvent)
  | outlookBridgeError (error : List Char)
deriving DecidableEq

/-- content-genie.js's `chrome.runtime.onMessage` listener: republish relayed events
and errors verbatim on the page-level channel. -/
def genieBridgeOnMessage : OutboundMsg → Option PageMsg
  | .relayOutlookEvents events => some (.outlookEventsImported events)
  | .outlookFetchErr error => some (.outlookBridgeError error)
  | .fetchCalendarCmd => none

/-! ## Specification-side helpers used by the theorems -/

/-- A 12-hour clock label component `"h:mm AM"` / `"h:mm PM"`, as matched by the
time-capture groups (minutes always two digits). -/
def mk12 (h m : Nat) (pm : Bool) : List Char :=
  natToChars h ++ ':' :: pad2 m ++ ' ' :: (if pm then ['P', 'M'] else ['A', 'M'])

/-- The intended 24-hour reading of a 12-hour time: noon and midnight special-cased. -/
def hour24 (h : Nat) (pm : Bool) : Nat :=
  if pm then (if h < 12 then h + 12 else h) else (if h = 12 then 0 else h)

/-- A 24-hour `"HH:MM"` string. -/
def hhmmChars (hh mm : Nat) : List Char := pad2 hh ++ ':' :: pad2 mm

/-- The start/end conversion the scraper applies to a label carrying a time range:
match `TIME_RANGE_FULL`, then `to24h` on each captured group. -/
def rangeTo24h (label : String) : Option (List Char × List Char) :=
  match execTimeRange label.data with
  | some (_, rangeMatch) =>
    match to24h rangeMatch.g1, to24h rangeMatch.g2 with
    | some s, some e => some (s, e)
    | _, _ => none
  | none => none

/-- `chain` lists the provider's continuation pages from `start`: each entry is a
continuation link with its response, every response is ok, each response's
`nextLink` starts the remaining chain, and the last page carries no `nextLink`. -/
def PageChain {α : Type} (net : String → HttpPage α) :
    Option String → List (String × HttpPage α) → Prop
  | start, [] => start = none
  | start, (l, pg) :: rest =>
    start = some l ∧ net l = pg ∧ httpOk pg.status = true ∧ PageChain net pg.nextLink rest

/-- A scraped element whose label carries a time range but no date information
(and whose ancestor chain is empty). -/
def undatedElem : DomElement :=
  ⟨some "Team sync 9:30 AM to 10:30 AM", some "Team sync 9:30 AM to 10:30 AM", []⟩

/-- A scraped element labelled with an overnight (inverted within-the-day) range. -/
def overnightElem : DomElement :=
  ⟨some "On call 10:00 PM to 8:00 AM", some "On call 10:00 PM to 8:00 AM", []⟩

/-- A host date parser assigning every string the same valid date (used to
instantiate oracle parameters in closed statements). -/
def constJsLocal : List Char → JSDate := fun _ => ⟨2026, 2, 2, 1, 9, 30⟩

/-- A network oracle whose initial calendarView response is HTTP 401. -/
def net401 : ApiNet GraphEvent :=
  ⟨⟨401, "", none, none⟩, fun _ => ⟨200, "", none, none⟩⟩

/-! ## Helper lemmas -/

theorem pad2_eq_digits : ∀ n < 100, pad2 n = [Nat.digitChar (n / 10), Nat.digitChar (n % 10)] := by
  decide

theorem digitChar_toNat : ∀ a < 10, (Nat.digitChar a).toNat = 48 + a := by decide

theorem lexLtB_nil : lexLtB [] [] = false := rfl

theorem lexLtB_cons_iff (x y : Char) (xs ys : List Char) :
    lexLtB (x :: xs) (y :: ys) = true ↔
      (x.toNat < y.toNat ∨ (x.toNat = y.toNat ∧ lexLtB xs ys = true)) := by
  simp only [lexLtB]
  split_ifs with h1 h2
  · simp only [true_iff]
    exact Or.inl h1
  · simp only [false_iff]
    rintro (h | ⟨h, _⟩) <;> omega
  · have hx : x.toNat = y.toNat := by omega
    simp [hx, Nat.lt_irrefl]

theorem lexLeB_cons_iff (x y : Char) (xs ys : List Char) :
    lexLeB (x :: xs) (y :: ys) = true ↔
      (x.toNat < y.toNat ∨ (x.toNat = y.toNat ∧ lexLeB xs ys = true)) := by
  simp only [lexLeB]
  split_ifs with h1 h2
  · simp only [true_iff]
    exact Or.inl h1
  · simp only [false_iff]
    rintro (h | ⟨h, _⟩) <;> omega
  · have hx : x.toNat = y.toNat := by omega
    simp [hx, Nat.lt_irrefl]

theorem lexLtB_pad2_pair (m1 m2 : Nat) (rest1 rest2 : List Char)
    (hm1 : m1 < 100) (hm2 : m2 < 100) :
    (lexLtB (pad2 m1 ++ rest1) (pad2 m2 ++ rest2) = true ↔
      m1 < m2 ∨ (m1 = m2 ∧ lexLtB rest1 rest2 = true)) := by
  have d1 := digitChar_toNat (m1 / 10) (by omega)
  have d2 := digitChar_toNat (m1 % 10) (by omega)
  have d3 := digitChar_toNat (m2 / 10) (by omega)
  have d4 := digitChar_toNat (m2 % 10) (by omega)
  rw [pad2_eq_digits m1 hm1, pad2_eq_digits m2 hm2]
  simp only [List.cons_append, List.nil_append]
  rw [lexLtB_cons_iff, lexLtB_cons_iff, d1, d2, d3, d4]
  by_cases hP : lexLtB rest1 rest2 = true <;> simp only [hP] <;> simp <;> omega

theorem lexLtB_hhmm {h1 m1 h2 m2 : Nat} (hh1 : h1 < 100) (hm1 : m1 < 100)
    (hh2 : h2 < 100) (hm2 : m2 < 100) :
    (lexLtB (hhmmChars h1 m1) (hhmmChars h2 m2) = true ↔
      h1 < h2 ∨ (h1 = h2 ∧ m1 < m2)) := by
  have hm := lexLtB_pad2_pair m1 m2 [] [] hm1 hm2
  simp only [List.append_nil, lexLtB_nil, Bool.false_eq_true, and_false, or_false] at hm
  rw [hhmmChars, hhmmChars, lexLtB_pad2_pair h1 h2 _ _ hh1 hh2, lexLtB_cons_iff, hm]
  omega

set_option maxHeartbeats 2000000 in
/-- `to24h` on a well-formed 12-hour label component: the hour is converted with noon
and midnight special-cased, the minute digits are carried over unchanged. -/
theorem to24h_mk12 :
    ∀ h < 13, ∀ m < 60, ∀ pm : Bool, 1 ≤ h →
      to24h (mk12 h m pm) = some (hhmmChars (hour24 h pm) m) := by
  decide

theorem lexLeB_refl (a : List Char) : lexLeB a a = true := by
  induction a with
  | nil => rfl
  | cons c cs ih => simp [lexLeB, ih]

theorem lexLeB_total (a b : List Char) : lexLeB a b = true ∨ lexLeB b a = true := by
  induction a generalizing b with
  | nil => left; rfl
  | cons c cs ih =>
    cases b with
    | nil => right; rfl
    | cons d ds =>
      rcases Nat.lt_trichotomy c.toNat d.toNat with h | h | h
      · left; simp [lexLeB, h]
      · rcases ih ds with h' | h' <;> [left; right] <;> simp [lexLeB, h, h']
      · right; simp [lexLeB, h]

theorem lexLeB_trans {a b c : List Char} (hab : lexLeB a b = true)
    (hbc : lexLeB b c = true) : lexLeB a c = true := by
  induction a generalizing b c with
  | nil => rfl
  | cons x xs ih =>
    cases b with
    | nil => simp [lexLeB] at hab
    | cons y ys =>
      cases c with
      | nil => simp [lexLeB] at hbc
      | cons z zs =>
        rw [lexLeB_cons_iff] at hab hbc ⊢
        rcases hab with h | ⟨h, hab⟩ <;> rcases hbc with h' | ⟨h', hbc⟩
        · exact Or.inl (by omega)
        · exact Or.inl (by omega)
        · exact Or.inl (by omega)
        · exact Or.inr ⟨by omega, ih hab hbc⟩

instance : IsTotal (List Char) lexLe := ⟨fun a b => lexLeB_total a b⟩

instance : IsTrans (List Char) lexLe := ⟨fun _ _ _ h1 h2 => lexLeB_trans h1 h2⟩

/-- Every event emitted by `scrapeLoop` has a key outside the incoming `seen` set. -/
theorem scrapeLoop_key_not_seen (jsDate : List Char → Option JSDate) (currentYear : Nat) :
    ∀ (els : List DomElement) (seen : List (List Char)) (ev : NormalizedEvent),
      ev ∈ scrapeLoop jsDate currentYear els seen → keyOf ev ∉ seen := by
  intro els
  induction els with
  | nil => intro seen ev h; simp [scrapeLoop] at h
  | cons el els ih =>
    intro seen ev h
    simp only [scrapeLoop] at h
    cases hpe : processElement jsDate currentYear el with
    | none => simp only [hpe] at h; exact ih seen ev h
    | some ev0 =>
      simp only [hpe] at h
      by_cases hseen : keyOf ev0 ∈ seen
      · rw [if_pos hseen] at h
        exact ih seen ev h
      · rw [if_neg hseen] at h
        rcases List.mem_cons.mp h with rfl | h'
        · exact hseen
        · intro hin
          exact (ih _ ev h') (List.mem_cons_of_mem _ hin)

/-- The keys of `scrapeLoop`'s output are pairwise distinct. -/
theorem scrapeLoop_keys_nodup (jsDate : List Char → Option JSDate) (currentYear : Nat) :
    ∀ (els : List DomElement) (seen : List (List Char)),
      ((scrapeLoop jsDate currentYear els seen).map keyOf).Nodup := by
  intro els
  induction els with
  | nil => intro seen; simp [scrapeLoop]
  | cons el els ih =>
    intro seen
    simp only [scrapeLoop]
    cases hpe : processElement jsDate currentYear el with
    | none => simp only [hpe]; exact ih seen
    | some ev0 =>
      simp only [hpe]
      by_cases hseen : keyOf ev0 ∈ seen
      · rw [if_pos hseen]; exact ih seen
      · rw [if_neg hseen]
        simp only [List.map_cons, List.nodup_cons]
        refine ⟨?_, ih _⟩
        intro hmem
        rcases List.mem_map.mp hmem with ⟨ev, hev, hkey⟩
        exact scrapeLoop_key_not_seen jsDate currentYear els _ ev hev
          (hkey ▸ List.mem_cons_self _ _)

/-- Coverage: an element that parses to an event either has its key already in
`seen`, or some output event carries that key. -/
theorem scrapeLoop_covers (jsDate : List Char → Option JSDate) (currentYear : Nat) :
    ∀ (els : List DomElement) (seen : List (List Char)) (el : DomElement)
      (ev : NormalizedEvent), el ∈ els → processElement jsDate currentYear el = some ev →
      keyOf ev ∈ seen ∨
        ∃ ev' ∈ scrapeLoop jsDate currentYear els seen, keyOf ev' = keyOf ev := by
  intro els
  induction els with
  | nil => intro seen el ev h; simp at h
  | cons el0 els ih =>
    intro seen el ev hmem hpe
    rcases List.mem_cons.mp hmem with rfl | hmem'
    · simp only [scrapeLoop, hpe]
      by_cases hseen : keyOf ev ∈ seen
      · exact Or.inl hseen
      · exact Or.inr ⟨ev, by rw [if_neg hseen]; exact List.mem_cons_self _ _, rfl⟩
    · simp only [scrapeLoop]
      cases hpe0 : processElement jsDate currentYear el0 with
      | none => simp only [hpe0]; exact ih seen el ev hmem' hpe
      | some ev0 =>
        simp only [hpe0]
        by_cases hseen0 : keyOf ev0 ∈ seen
        · rw [if_pos hseen0]
          exact ih seen el ev hmem' hpe
        · rw [if_neg hseen0]
          rcases ih (keyOf ev0 :: seen) el ev hmem' hpe with hs | ⟨ev', hev', hk⟩
          · rcases List.mem_cons.mp hs with hk0 | hs'
            · exact Or.inr ⟨ev0, List.mem_cons_self _ _, hk0.symm⟩
            · exact Or.inl hs'
          · exact Or.inr ⟨ev', List.mem_cons_of_mem _ hev', hk⟩

/-- Unfolding the pagination loop along a finite, all-ok continuation chain:
the accumulator picks up every page's `value` in order and exactly one `.page`
request is issued per chain entry, in chain order. -/
theorem followNextLinks_chain {α : Type} (net : String → HttpPage α) :
    ∀ (chain : List (String × HttpPage α)) (start : Option String) (fuel : Nat)
      (acc : List α), PageChain net start chain → chain.length ≤ fuel →
      followNextLinks net fuel start acc =
        (acc ++ (chain.map fun c => c.2.value.getD []).flatten,
         chain.map fun c => ApiRequest.page c.1) := by
  intro chain
  induction chain with
  | nil =>
    intro start fuel acc hchain _
    cases hchain
    cases fuel <;> simp [followNextLinks]
  | cons c rest ih =>
    intro start fuel acc hchain hlen
    obtain ⟨hstart, hnet, hok, hrest⟩ := hchain
    cases fuel with
    | zero => simp at hlen
    | succ fuel =>
      subst hstart
      simp only [followNextLinks, hnet, hok, if_true]
      rw [ih _ fuel _ hrest (by simpa using hlen)]
      simp

/-- A successful part_001 fetch result is the filter-then-normalize image of some
raw event list. -/
theorem graphFetch_ok_shape (jsLocal : List Char → JSDate) (net : ApiNet GraphEvent)
    (fuel : Nat) (tok : Option String) (evs : List NormalizedEvent)
    (h : (graphFetchCalendarEvents jsLocal net fuel tok).2.1 = .ok evs) :
    ∃ raws, evs = normalizeGraphList jsLocal raws := by
  cases tok with
  | none => simp [graphFetchCalendarEvents] at h
  | some t =>
    by_cases h401 : net.first.status = 401
    · simp [graphFetchCalendarEvents, h401] at h
    · by_cases hok : httpOk net.first.status
      · refine ⟨(followNextLinks net.page fuel net.first.nextLink (net.first.value.getD [])).1, ?_⟩
        simp [graphFetchCalendarEvents, h401, hok] at h
        exact h.symm
      · simp [graphFetchCalendarEvents, h401, hok] at h

/-- A successful part_003 fetch result is the filter-then-normalize image of some
raw event list. -/
theorem owaFetch_ok_shape (jsLocal : List Char → JSDate) (net : ApiNet OwaEvent)
    (fuel : Nat) (evs : List NormalizedEvent)
    (h : (owaFetchCalendarEvents jsLocal net fuel).1 = .ok evs) :
    ∃ raws, evs = normalizeOwaList jsLocal raws := by
  by_cases hok : httpOk net.first.status = true
  · refine ⟨(followNextLinks net.page fuel net.first.nextLink (net.first.value.getD [])).1, ?_⟩
    simp [owaFetchCalendarEvents, hok] at h
    exact h.symm
  · have hf : httpOk net.first.status = false := by simpa using hok
    simp only [owaFetchCalendarEvents, hf, Bool.not_false, if_true] at h
    split at h <;> simp at h

theorem mem_normalizeGraphList {jsL : List Char → JSDate} {raws : List GraphEvent}
    {ev : NormalizedEvent} (h : ev ∈ normalizeGraphList jsL raws) :
    ∃ raw ∈ raws, raw.showAs ≠ some "free" ∧ ev = normalizeGraphEvent jsL raw := by
  rcases List.mem_map.mp h with ⟨raw, hraw, rfl⟩
  rcases List.mem_filter.mp hraw with ⟨hr, hp⟩
  exact ⟨raw, hr, by simpa using hp, rfl⟩

theorem mem_normalizeOwaList {jsL : List Char → JSDate} {raws : List OwaEvent}
    {ev : NormalizedEvent} (h : ev ∈ normalizeOwaList jsL raws) :
    ∃ raw ∈ raws, raw.ShowAs ≠ some "Free" ∧ ev = normalizeOwaEvent jsL raw := by
  rcases List.mem_map.mp h with ⟨raw, hraw, rfl⟩
  rcases List.mem_filter.mp hraw with ⟨hr, hp⟩
  exact ⟨raw, hr, by simpa using hp, rfl⟩

/-- In a list whose image under `f` has no duplicates, exactly one entry maps to any
value attained by `f`. -/
theorem countP_map_eq_one {α β : Type} [DecidableEq β] :
    ∀ (l : List α) (f : α → β) (b : β), (l.map f).Nodup → b ∈ l.map f →
      l.countP (fun x => decide (f x = b)) = 1 := by
  intro l
  induction l with
  | nil => intro f b _ hb; simp at hb
  | cons a l ih =>
    intro f b hnd hb
    simp only [List.map_cons, List.nodup_cons] at hnd
    rcases hnd with ⟨hfa, hnd⟩
    simp only [List.map_cons, List.mem_cons] at hb
    rcases hb with rfl | hb
    · have hz : l.countP (fun x => decide (f x = f a)) = 0 := by
        rw [List.countP_eq_zero]
        intro x hx
        simp only [decide_eq_true_eq]
        intro hfx
        exact hfa (hfx ▸ List.mem_map_of_mem f hx)
      simp [List.countP_cons, hz]
    · have hne : f a ≠ b := fun he => hfa (he ▸ hb)
      simp [List.countP_cons, hne, ih f b hnd hb]

/-- When no source pattern matches any tab, the pattern loop finds nothing. -/
theorem firstTabMatching_none (query : String → List ChromeTab) :
    ∀ pats : List String, (∀ p ∈ pats, query p = []) →
      firstTabMatching query pats = none := by
  intro pats
  induction pats with
  | nil => intro _; rfl
  | cons p ps ih =>
    intro h
    simp only [firstTabMatching, h p (List.mem_cons_self p ps)]
    exact ih fun q hq => h q (List.mem_cons_of_mem p hq)

theorem jsSortStrings_sorted (l : List (List Char)) :
    List.Sorted lexLe (jsSortStrings l) := List.sorted_insertionSort lexLe l

theorem jsSortStrings_mem {x : List Char} {l : List (List Char)} :
    x ∈ jsSortStrings l ↔ x ∈ l := (List.perm_insertionSort lexLe l).mem_iff

/-- The head of a sorted list is a lower bound for its members. -/
theorem sorted_head_le {l : List (List Char)} {w : List Char}
    (hs : List.Sorted lexLe l) (hw : l.head? = some w) :
    ∀ d ∈ l, lexLeB w d = true := by
  cases l with
  | nil => simp at hw
  | cons a t =>
    simp only [List.head?_cons, Option.some.injEq] at hw
    subst hw
    intro d hd
    rcases List.mem_cons.mp hd with rfl | hd2
    · exact lexLeB_refl d
    · exact (List.sorted_cons.mp hs).1 d hd2

/-- The head of a list, when present, is a member. -/
theorem head?_mem {α : Type} {l : List α} {w : α} (hw : l.head? = some w) : w ∈ l := by
  cases l with
  | nil => simp at hw
  | cons a t =>
    simp only [List.head?_cons, Option.some.injEq] at hw
    subst hw
    exact List.mem_cons_self _ _

/-! ## Concrete instances used by witnesses -/

/-- A raw Graph event that is not marked free. -/
def gev1 : GraphEvent :=
  ⟨some "Standup", none, "2026-03-02T09:30:00.0000000", "2026-03-02T10:00:00.0000000"⟩

/-- A raw Graph event marked `showAs: 'free'`. -/
def gev2 : GraphEvent := ⟨some "Focus", some "free", "2026-03-03T09:30:00", "2026-03-03T10:00:00"⟩

def pgFirst : HttpPage GraphEvent := ⟨200, "", some [gev1], some "L1"⟩

def pgSecond : HttpPage GraphEvent := ⟨200, "", some [gev2], none⟩

/-- A two-page Graph response set: the initial response continues at link `"L1"`. -/
def twoPageNet : ApiNet GraphEvent :=
  ⟨pgFirst, fun l => if l = "L1" then pgSecond else ⟨500, "", none, none⟩⟩

/-- A raw OWA event marked `ShowAs: 'Free'`. -/
def oev1 : OwaEvent := ⟨some "Triage", some "Free", "2026-03-02T14:30:00", "2026-03-02T15:00:00"⟩

def oev2 : OwaEvent := ⟨some "Review", some "Busy", "2026-03-02T16:30:00", "2026-03-02T17:00:00"⟩

/-- A single-page OWA response set. -/
def onePageOwaNet : ApiNet OwaEvent :=
  ⟨⟨200, "", some [oev1, oev2], none⟩, fun _ => ⟨500, "", none, none⟩⟩

/-- Events carrying dates out of order, for the `weekOf` witness. -/
def c10events : List NormalizedEvent :=
  [⟨"a".data, "09:00".data, "10:00".data, some "2026-03-04".data, none⟩,
   ⟨"b".data, "11:00".data, "12:00".data, some "2026-03-02".data, none⟩,
   ⟨"c".data, "13:00".data, "14:00".data, none, none⟩]

/-- The event the scraper produces from `undatedElem`. -/
def undatedEv : NormalizedEvent :=
  ⟨"Team sync".data, "09:30".data, "10:30".data, none, none⟩

/-! ## C1 -/

/-- C1: when the Router receives `OUTLOOK_EVENTS_READY`, it relays the identical
events list to every tab in the consumer registry (`genieTabs`), not only the
original requester: every registered tab is sent a `RELAY_OUTLOOK_EVENTS` message
carrying `message.events || []`, every message sent carries exactly that payload,
and the consumer-tab bridge republishes the relayed list verbatim to the page. -/
theorem router_broadcasts_identical_events (genieTabs : List Nat) (msg : EventsReadyMsg) :
    (∀ t ∈ genieTabs,
      (t, OutboundMsg.relayOutlookEvents (msg.events.getD [])) ∈
        routerOnEventsReady genieTabs msg) ∧
    (∀ p ∈ routerOnEventsReady genieTabs msg,
      p.2 = OutboundMsg.relayOutlookEvents (msg.events.getD [])) ∧
    (∀ events : List NormalizedEvent,
      genieBridgeOnMessage (OutboundMsg.relayOutlookEvents events) =
        some (PageMsg.outlookEventsImported events)) := by
  refine ⟨?_, ?_, fun _ => rfl⟩
  · intro t ht
    exact List.mem_map.mpr ⟨t, ht, rfl⟩
  · intro p hp
    rcases List.mem_map.mp hp with ⟨t, _, rfl⟩
    rfl

theorem router_broadcasts_identical_events_witness :
    (5, OutboundMsg.relayOutlookEvents [undatedEv]) ∈
      routerOnEventsReady [5, 9] ⟨some [undatedEv], none⟩ :=
  (router_broadcasts_identical_events [5, 9] ⟨some [undatedEv], none⟩).1 5 (by decide)

/-! ## C2 -/

/-- C2 (counterexample): after an upstream 401 clears the cached token, the next
`FETCH_CALENDAR_EVENTS` command does fail immediately with no network request, but
with the `TokenNotCaptured` ("No Outlook session token captured yet…") message, not
the `TokenExpired` message as the claim states. -/
theorem token401_next_fetch_not_token_expired :
    (graphFetchCalendarEvents constJsLocal net401 0 (some "tok")).1 = none ∧
    (graphFetchCalendarEvents constJsLocal net401 0 (some "tok")).2.1 =
      .error tokenExpiredMsg ∧
    graphFetchCalendarEvents constJsLocal net401 0 none =
      (none, .error noTokenCapturedMsg, []) ∧
    ¬ (graphFetchCalendarEvents constJsLocal net401 0 none).2.1 = .error tokenExpiredMsg := by
  decide

/-- C2 (amended): on an upstream HTTP 401 the cached token is cleared and the
*current* fetch fails with the `TokenExpired` message after exactly the initial
calendarView request; any fetch issued with no cached token — in particular the next
command after the 401 — fails immediately with the `TokenNotCaptured` message and
issues no network request at all. -/
theorem token401_clears_token_next_fails_no_token (jsLocal : List Char → JSDate)
    (net : ApiNet GraphEvent) (fuel : Nat) (tok : String)
    (h401 : net.first.status = 401) :
    graphFetchCalendarEvents jsLocal net fuel (some tok) =
      (none, .error tokenExpiredMsg, [.calendarView]) ∧
    ∀ (jsL : List Char → JSDate) (net2 : ApiNet GraphEvent) (fuel2 : Nat),
      graphFetchCalendarEvents jsL net2 fuel2 none =
        (none, .error noTokenCapturedMsg, []) := by
  constructor
  · simp [graphFetchCalendarEvents, h401]
  · intro _ _ _
    rfl

theorem token401_clears_token_next_fails_no_token_witness :
    graphFetchCalendarEvents constJsLocal net401 3 (some "tok") =
      (none, .error tokenExpiredMsg, [.calendarView]) :=
  (token401_clears_token_next_fails_no_token constJsLocal net401 3 "tok" (by decide)).1

/-! ## C3 -/

/-- C3 (counterexample): the DOM scraper pushes an event with `date` and `day` both
null when its label carries a time range but no recoverable date: on the element
labelled "Team sync 9:30 AM to 10:30 AM" with no dated ancestor, the produced event
has `date = null` and `day = null`. -/
theorem scraper_event_with_null_date_and_day :
    ¬ (∀ ev ∈ readCalendarFromDom (fun _ => none) 2026 [undatedElem],
        ev.date.isSome ∨ ev.day.isSome) ∧
    (readCalendarFromDom (fun _ => none) 2026 [undatedElem]).map
        (fun ev => (ev.date, ev.day)) = [(none, none)] := by
  decide

/-- C3 (amended): the two API strategies always produce a non-null `date`, and a
non-null `day` whenever the host date parser yields a valid weekday index; the DOM
scraper, by contrast, can produce an event with both `date` and `day` null (see the
counterexample). -/
theorem api_events_have_date_and_day (jsLocal : List Char → JSDate)
    (hday : ∀ s, (jsLocal s).day < 7) (e : GraphEvent) (e2 : OwaEvent) :
    (normalizeGraphEvent jsLocal e).date.isSome ∧
    (normalizeGraphEvent jsLocal e).day.isSome ∧
    (normalizeOwaEvent jsLocal e2).date.isSome ∧
    (normalizeOwaEvent jsLocal e2).day.isSome := by
  have hlen : dayNames.length = 7 := by decide
  refine ⟨rfl, ?_, rfl, ?_⟩ <;>
    simp only [normalizeGraphEvent, normalizeOwaEvent, Option.isSome_map] <;>
    rw [List.getElem?_eq_getElem (by rw [hlen]; exact hday _)] <;>
    rfl

theorem api_events_have_date_and_day_witness :
    (normalizeGraphEvent constJsLocal gev1).date.isSome ∧
    (normalizeGraphEvent constJsLocal gev1).day.isSome ∧
    (normalizeOwaEvent constJsLocal oev2).date.isSome ∧
    (normalizeOwaEvent constJsLocal oev2).day.isSome :=
  api_events_have_date_and_day constJsLocal (fun _ => (by decide : (1 : Nat) < 7)) gev1 oev2

/-! ## C4 -/

/-- C4 (counterexample): no strategy enforces `start < end`: on the element labelled
"On call 10:00 PM to 8:00 AM" the scraper emits `start = "22:00"`, `end = "08:00"`,
and `"22:00" < "08:00"` is false in the string order. -/
theorem scraper_emits_inverted_range :
    ¬ (∀ ev ∈ readCalendarFromDom (fun _ => none) 2026 [overnightElem],
        lexLtB ev.start ev.«end» = true) ∧
    (readCalendarFromDom (fun _ => none) 2026 [overnightElem]).map
        (fun ev => (ev.start, ev.«end»)) = [("22:00".data, "08:00".data)] := by
  decide

/-- C4 (amended): the 12-to-24-hour conversion is strictly order-preserving — for two
well-formed 12-hour times, `to24h`'s outputs compare as strings exactly as the times
compare chronologically within the day — so `start < end` holds precisely when the
source range is forward; the strategies copy the times without enforcing it (see the
counterexample). -/
theorem to24h_strictly_order_preserving (h1 m1 : Nat) (pm1 : Bool) (h2 m2 : Nat)
    (pm2 : Bool) (hl1 : 1 ≤ h1) (hu1 : h1 ≤ 12) (hm1 : m1 < 60)
    (hl2 : 1 ≤ h2) (hu2 : h2 ≤ 12) (hm2 : m2 < 60) :
    ∃ s e, to24h (mk12 h1 m1 pm1) = some s ∧ to24h (mk12 h2 m2 pm2) = some e ∧
      (lexLtB s e = true ↔
        60 * hour24 h1 pm1 + m1 < 60 * hour24 h2 pm2 + m2) := by
  have hb1 : hour24 h1 pm1 < 100 := by unfold hour24; split_ifs <;> omega
  have hb2 : hour24 h2 pm2 < 100 := by unfold hour24; split_ifs <;> omega
  refine ⟨_, _, to24h_mk12 h1 (by omega) m1 hm1 pm1 hl1,
    to24h_mk12 h2 (by omega) m2 hm2 pm2 hl2, ?_⟩
  rw [lexLtB_hhmm hb1 (by omega) hb2 (by omega)]
  omega

theorem to24h_strictly_order_preserving_witness :
    ∃ s e, to24h (mk12 9 30 false) = some s ∧ to24h (mk12 10 0 false) = some e ∧
      (lexLtB s e = true ↔ 60 * hour24 9 false + 30 < 60 * hour24 10 false + 0) :=
  to24h_strictly_order_preserving 9 30 false 10 0 false (by decide) (by decide)
    (by decide) (by decide) (by decide) (by decide)

/-! ## C5 -/

/-- C5: for a finite all-ok continuation chain, both API strategies follow the links
strictly sequentially (the request trace is the calendarView query followed by the
chain's links in order), issue exactly one request per page, and return exactly one
result whose payload is the uniform normalization of the concatenation of all pages'
events; the result is a function of the response set alone, so replaying the same
responses yields the same list. -/
theorem pagination_accumulates_sequentially (jsLocal : List Char → JSDate)
    (net : ApiNet GraphEvent) (chain : List (String × HttpPage GraphEvent))
    (fuel : Nat) (tok : String) (hok : httpOk net.first.status = true)
    (h401 : net.first.status ≠ 401)
    (hchain : PageChain net.page net.first.nextLink chain)
    (hfuel : chain.length ≤ fuel)
    (jsLocal2 : List Char → JSDate) (net2 : ApiNet OwaEvent)
    (chain2 : List (String × HttpPage OwaEvent)) (fuel2 : Nat)
    (hok2 : httpOk net2.first.status = true)
    (hchain2 : PageChain net2.page net2.first.nextLink chain2)
    (hfuel2 : chain2.length ≤ fuel2) :
    graphFetchCalendarEvents jsLocal net fuel (some tok) =
      (some tok,
       .ok (normalizeGraphList jsLocal
         (net.first.value.getD [] ++ (chain.map fun c => c.2.value.getD []).flatten)),
       .calendarView :: chain.map fun c => ApiRequest.page c.1) ∧
    owaFetchCalendarEvents jsLocal2 net2 fuel2 =
      (.ok (normalizeOwaList jsLocal2
         (net2.first.value.getD [] ++ (chain2.map fun c => c.2.value.getD []).flatten)),
       .calendarView :: chain2.map fun c => ApiRequest.page c.1) := by
  constructor
  · have hfl := followNextLinks_chain net.page chain net.first.nextLink fuel
      (net.first.value.getD []) hchain hfuel
    simp [graphFetchCalendarEvents, h401, hok, hfl]
  · have hfl := followNextLinks_chain net2.page chain2 net2.first.nextLink fuel2
      (net2.first.value.getD []) hchain2 hfuel2
    simp [owaFetchCalendarEvents, hok2, hfl]

theorem pagination_accumulates_sequentially_witness :
    graphFetchCalendarEvents constJsLocal twoPageNet 5 (some "t") =
      (some "t",
       .ok (normalizeGraphList constJsLocal
         (twoPageNet.first.value.getD [] ++
           (([("L1", pgSecond)].map fun c => c.2.value.getD []).flatten))),
       .calendarView :: [("L1", pgSecond)].map fun c => ApiRequest.page c.1) ∧
    owaFetchCalendarEvents constJsLocal onePageOwaNet 5 =
      (.ok (normalizeOwaList constJsLocal
         (onePageOwaNet.first.value.getD [] ++
           (([] : List (String × HttpPage OwaEvent)).map fun c => c.2.value.getD []).flatten)),
       .calendarView :: ([] : List (String × HttpPage OwaEvent)).map fun c =>
         ApiRequest.page c.1) :=
  pagination_accumulates_sequentially constJsLocal twoPageNet [("L1", pgSecond)] 5 "t"
    (by decide) (by decide) ⟨rfl, by decide, by decide, rfl⟩ (by decide)
    constJsLocal onePageOwaNet [] 5 (by decide) rfl (by decide)

/-! ## C6 -/

/-- C6: no event carrying the provider's "free" busy-status marker survives into a
successful result: every event in a successful part_001 (Graph) result is the
normalization of a raw event with `showAs ≠ 'free'`, and every event in a successful
part_003 (OWA REST) result is the normalization of a raw event with `ShowAs ≠ 'Free'`
— the filter runs before normalization. -/
theorem free_events_filtered_out (jsLocal : List Char → JSDate) (net : ApiNet GraphEvent)
    (fuel : Nat) (jsLocal2 : List Char → JSDate) (net2 : ApiNet OwaEvent) (fuel2 : Nat) :
    (∀ (tok : Option String) (evs : List NormalizedEvent),
      (graphFetchCalendarEvents jsLocal net fuel tok).2.1 = .ok evs →
      ∀ ev ∈ evs, ∃ raw, raw.showAs ≠ some "free" ∧ ev = normalizeGraphEvent jsLocal raw) ∧
    (∀ evs : List NormalizedEvent,
      (owaFetchCalendarEvents jsLocal2 net2 fuel2).1 = .ok evs →
      ∀ ev ∈ evs, ∃ raw, raw.ShowAs ≠ some "Free" ∧ ev = normalizeOwaEvent jsLocal2 raw) := by
  constructor
  · intro tok evs hres ev hev
    rcases graphFetch_ok_shape jsLocal net fuel tok evs hres with ⟨raws, rfl⟩
    rcases mem_normalizeGraphList hev with ⟨raw, _, hfree, hev'⟩
    exact ⟨raw, hfree, hev'⟩
  · intro evs hres ev hev
    rcases owaFetch_ok_shape jsLocal2 net2 fuel2 evs hres with ⟨raws, rfl⟩
    rcases mem_normalizeOwaList hev with ⟨raw, _, hfree, hev'⟩
    exact ⟨raw, hfree, hev'⟩

theorem free_events_filtered_out_witness :
    ∃ raw, raw.showAs ≠ some "free" ∧
      normalizeGraphEvent constJsLocal gev1 = normalizeGraphEvent constJsLocal raw :=
  (free_events_filtered_out constJsLocal twoPageNet 5 constJsLocal onePageOwaNet 5).1
    (some "t") (normalizeGraphList constJsLocal [gev1, gev2]) (by decide)
    (normalizeGraphEvent constJsLocal gev1) (by decide)

/-! ## C7 -/

/-- C7: the 12-hour to 24-hour conversion maps every well-formed "h:mm AM/PM" time to
"HH:MM" with noon and midnight special-cased (12 AM → hour 00, 12 PM stays 12); in
particular the label "9:30 AM – 10:00 AM" converts to (start "09:30", end "10:00"),
"12:00 PM – 12:30 PM" to ("12:00", "12:30"), and "12:15 AM – 1:00 AM" to
("00:15", "01:00"). -/
theorem time_conversion_12h_to_24h :
    (∀ h < 13, ∀ m < 60, ∀ pm : Bool, 1 ≤ h →
      to24h (mk12 h m pm) = some (hhmmChars (hour24 h pm) m)) ∧
    rangeTo24h "9:30 AM – 10:00 AM" = some ("09:30".data, "10:00".data) ∧
    rangeTo24h "12:00 PM – 12:30 PM" = some ("12:00".data, "12:30".data) ∧
    rangeTo24h "12:15 AM – 1:00 AM" = some ("00:15".data, "01:00".data) :=
  ⟨to24h_mk12, by decide, by decide, by decide⟩

theorem time_conversion_12h_to_24h_witness :
    to24h (mk12 12 15 false) = some (hhmmChars (hour24 12 false) 15) :=
  time_conversion_12h_to_24h.1 12 (by decide) 15 (by decide) false (by decide)

/-! ## C8 -/

/-- C8: the scraper's composite-key deduplication works: the keys
(resolved-date-or-day, normalized start, normalized end, 40-character title prefix)
of its output are pairwise distinct, and whenever a scraped element parses to an
event, exactly one output event carries that event's key — so two elements whose
events agree on the key (in particular nested accessibility-labelled duplicates)
contribute exactly one output event. -/
theorem scraper_dedup_unique_keys (jsDate : List Char → Option JSDate)
    (currentYear : Nat) (els : List DomElement) :
    ((readCalendarFromDom jsDate currentYear els).map keyOf).Nodup ∧
    ∀ el ∈ els, ∀ ev : NormalizedEvent, processElement jsDate currentYear el = some ev →
      (readCalendarFromDom jsDate currentYear els).countP
        (fun x => decide (keyOf x = keyOf ev)) = 1 := by
  constructor
  · exact scrapeLoop_keys_nodup jsDate currentYear els []
  · intro el hel ev hev
    rcases scrapeLoop_covers jsDate currentYear els [] el ev hel hev with hmem | ⟨ev2, hev2, hk⟩
    · simp at hmem
    · exact countP_map_eq_one (readCalendarFromDom jsDate currentYear els) keyOf (keyOf ev)
        (scrapeLoop_keys_nodup jsDate currentYear els [])
        (hk ▸ List.mem_map_of_mem keyOf hev2)

theorem scraper_dedup_unique_keys_witness :
    (readCalendarFromDom (fun _ => none) 2026 [undatedElem, undatedElem]).countP
      (fun x => decide (keyOf x = keyOf undatedEv)) = 1 :=
  (scraper_dedup_unique_keys (fun _ => none) 2026 [undatedElem, undatedElem]).2
    undatedElem (by decide) undatedEv (by decide)

/-! ## C9 -/

/-- C9: when no source pattern matches any open tab, `fetchFromOutlookTab` delivers
exactly one message, to the requesting consumer tab alone: the fetch-error message
whose reason begins "No Outlook tab found" (the spec's name for the Outlook tab is
"source tab"); no other tab — registered or not — is sent anything for that request. -/
theorem no_source_tab_error_to_requester_only (query : String → List ChromeTab)
    (deliverable : Nat → Bool) (r : Nat)
    (hempty : ∀ p ∈ outlookPatterns, query p = []) :
    fetchFromOutlookTab query deliverable (some r) =
      [(r, .outlookFetchErr noOutlookTabMsg)] ∧
    beginsWith noOutlookTabMsg "No Outlook tab found".data = true ∧
    ∀ t m, (t, m) ∈ fetchFromOutlookTab query deliverable (some r) → t = r := by
  have hnone := firstTabMatching_none query outlookPatterns hempty
  refine ⟨?_, by decide, ?_⟩
  · simp [fetchFromOutlookTab, hnone]
  · intro t m hm
    simp only [fetchFromOutlookTab, hnone] at hm
    rcases List.mem_singleton.mp hm with h
    exact congrArg Prod.fst h

theorem no_source_tab_error_to_requester_only_witness :
    fetchFromOutlookTab (fun _ => []) (fun _ => true) (some 7) =
      [(7, .outlookFetchErr noOutlookTabMsg)] :=
  (no_source_tab_error_to_requester_only (fun _ => []) (fun _ => true) 7
    (fun _ _ => rfl)).1

/-! ## C10 -/

/-- C10: the scrape strategy computes `weekOf` — the lexicographically smallest
non-null event date — and includes it in its `OUTLOOK_EVENTS_READY` message, but the
Router's relay is independent of `weekOf` and every relayed message carries only the
events list, so `weekOf` never reaches any consumer tab. -/
theorem weekof_never_reaches_consumers (genieTabs : List Nat)
    (events : Option (List NormalizedEvent)) (w w2 : Option (Option (List Char))) :
    routerOnEventsReady genieTabs ⟨events, w⟩ = routerOnEventsReady genieTabs ⟨events, w2⟩ ∧
    (∀ p ∈ routerOnEventsReady genieTabs ⟨events, w⟩,
      p.2 = OutboundMsg.relayOutlookEvents (events.getD [])) ∧
    (∀ (jsDate : List Char → Option JSDate) (currentYear : Nat) (els : List DomElement),
      (readCalendarFromDom jsDate currentYear els).isEmpty = false →
      scraperHandleFetch jsDate currentYear els =
        .outlookEventsReady (readCalendarFromDom jsDate currentYear els)
          (some (scraperWeekOf (readCalendarFromDom jsDate currentYear els)))) ∧
    (∀ (evs : List NormalizedEvent) (wk : List Char),
      scraperWeekOf evs = some wk →
      wk ∈ jsFilterBooleanStrs (evs.map (·.date)) ∧
      ∀ d ∈ jsFilterBooleanStrs (evs.map (·.date)), lexLeB wk d = true) := by
  refine ⟨rfl, ?_, ?_, ?_⟩
  · intro p hp
    rcases List.mem_map.mp hp with ⟨t, _, rfl⟩
    rfl
  · intro jsDate currentYear els hne
    simp [scraperHandleFetch, hne]
  · intro evs wk hwk
    simp only [scraperWeekOf] at hwk
    have hsorted : List.Sorted lexLe (sortedEventDates evs) := by
      unfold sortedEventDates
      exact jsSortStrings_sorted _
    have hle := sorted_head_le hsorted hwk
    have hmemw : wk ∈ sortedEventDates evs := head?_mem hwk
    have hmemw2 : wk ∈ jsSortStrings (jsFilterBooleanStrs (evs.map (·.date))) := hmemw
    refine ⟨jsSortStrings_mem.mp hmemw2, ?_⟩
    intro d hd
    have hd2 : d ∈ jsSortStrings (jsFilterBooleanStrs (evs.map (·.date))) :=
      jsSortStrings_mem.mpr hd
    exact hle d hd2

theorem weekof_never_reaches_consumers_witness :
    "2026-03-02".data ∈ jsFilterBooleanStrs (c10events.map (·.date)) ∧
    ∀ d ∈ jsFilterBooleanStrs (c10events.map (·.date)),
      lexLeB "2026-03-02".data d = true :=
  (weekof_never_reaches_consumers [] none none none).2.2.2 c10events
    "2026-03-02".data (by decide)
